import Mathlib

/-!
Verification of the shopify-insights-fetcher acquisition-and-extraction
pipeline: a shallow embedding of the Python source (scraper, helpers,
brand analyzer, competitor analyzer) into Lean, with theorems settling
the specification claims about retry/backoff, catalog pagination,
heuristic extraction, truncation, and the brand/product upsert state
machine.

Strings are modelled as Lean `String`/`List Char`; machine integers do
not occur in the relevant code paths.  External effects (HTTP responses,
the generative-text collaborator, database commits) are modelled as
explicit parameters; the database is an explicit record of rows.
-/

set_option maxRecDepth 4000

namespace ShopifyInsights

/-! ## Python string primitives used by `app/utils/helpers.py` -/

/-- ASCII whitespace, the fragment of Python's `\s`/`str.strip()` class
that the embedded documents use. -/
def isPySpace (c : Char) : Bool :=
  c = ' ' ∨ c = '\t' ∨ c = '\n' ∨ c = '\r' ∨ c = '\x0b' ∨ c = '\x0c'

/-- `html.unescape`, restricted to the five predefined XML entities;
all other text passes through unchanged (the source relies on no other
entity). -/
def htmlUnescape : List Char → List Char
  | [] => []
  | '&' :: 'a' :: 'm' :: 'p' :: ';' :: rest => '&' :: htmlUnescape rest
  | '&' :: 'l' :: 't' :: ';' :: rest => '<' :: htmlUnescape rest
  | '&' :: 'g' :: 't' :: ';' :: rest => '>' :: htmlUnescape rest
  | '&' :: 'q' :: 'u' :: 'o' :: 't' :: ';' :: rest => '"' :: htmlUnescape rest
  | '&' :: '#' :: '3' :: '9' :: ';' :: rest => '\'' :: htmlUnescape rest
  | c :: rest => c :: htmlUnescape rest

/-- `re.sub(r'\s+', ' ', text)`: collapse each whitespace run to a single
space.  The boolean flag records whether the previous character was part
of a whitespace run. -/
def collapseWsGo : Bool → List Char → List Char
  | _, [] => []
  | prevWs, c :: rest =>
    if isPySpace c then
      if prevWs then collapseWsGo true rest else ' ' :: collapseWsGo true rest
    else c :: collapseWsGo false rest

def collapseWs (l : List Char) : List Char := collapseWsGo false l

/-- Python `str.strip()` (after whitespace collapsing only spaces remain,
but we strip the full class as Python does). -/
def pyStrip (l : List Char) : List Char :=
  ((l.dropWhile isPySpace).reverse.dropWhile isPySpace).reverse

/-- `helpers.clean_text`: empty input returns `""`; otherwise decode HTML
entities, collapse whitespace runs to one space, strip both ends. -/
def clean_text (l : List Char) : List Char :=
  if l = [] then [] else pyStrip (collapseWs (htmlUnescape l))

/-- `clean_text` on `String`. -/
def cleanTextS (s : String) : String := String.mk (clean_text s.data)

/-- ASCII `str.lower()`. -/
def pyLower (l : List Char) : List Char := l.map Char.toLower

/-- Python `str.title()` on ASCII text: an alphabetic character is
uppercased when the previous character is not alphabetic, lowercased
otherwise.  The flag records whether the previous character was
alphabetic. -/
def pyTitleGo : Bool → List Char → List Char
  | _, [] => []
  | prevAlpha, c :: rest =>
    if c.isAlpha then
      (if prevAlpha then c.toLower else c.toUpper) :: pyTitleGo true rest
    else c :: pyTitleGo false rest

def pyTitle (l : List Char) : List Char := pyTitleGo false l

/-- Index of the last occurrence of `c` in the list, `none` if absent:
the underlying computation of Python's `str.rfind`. -/
def lastIdxOf (c : Char) : List Char → Option Nat
  | [] => none
  | x :: xs =>
    match lastIdxOf c xs with
    | some i => some (i + 1)
    | none => if x = c then some 0 else none

/-- `helpers.truncate_text`: unchanged when empty or within the limit;
otherwise take the first `maxLength` characters, cut back to the last
space when its index lies strictly beyond `0.8 * maxLength` (the float
comparison `last_space > max_length * 0.8` is expressed exactly as
`5 * last_space > 4 * maxLength`, which agrees with the float
comparison for every limit the program uses), and append `"..."`.
`rfind` returning `-1` (no space) fails the comparison, as in Python. -/
def truncate_text (text : List Char) (maxLength : Nat) : List Char :=
  if text = [] ∨ text.length ≤ maxLength then text
  else
    let truncated := text.take maxLength
    let cut :=
      match lastIdxOf ' ' truncated with
      | some i => if 5 * i > 4 * maxLength then truncated.take i else truncated
      | none => truncated
    cut ++ ('.' :: '.' :: '.' :: [])

/-! ## URL handling (`urllib.parse.urlparse` as used by
`helpers.extract_domain`, and the scheme normalization in
`scrape_store`) -/

/-- Characters allowed in a URL scheme. -/
def isSchemeChar (c : Char) : Bool := c.isAlphanum || c = '+' || c = '-' || c = '.'

/-- Strip a leading `scheme:` as `urlparse` does: the text before the
first `:` must start with a letter and consist of scheme characters. -/
def splitSchemeRest (l : List Char) : List Char :=
  match l.findIdx? (fun c => c = ':') with
  | none => l
  | some i =>
    if 0 < i ∧ (l.take i).all isSchemeChar ∧ (l.take 1).all Char.isAlpha then
      l.drop (i + 1)
    else l

/-- The `netloc` of `urlparse`: present only after a leading `//`;
delimited by `/`, `?` or `#`; `urlparse` raises
`ValueError("Invalid IPv6 URL")` when exactly one square bracket
occurs in it. -/
def urlparseNetloc (l : List Char) : Except String (List Char) :=
  let rest := splitSchemeRest l
  if rest.take 2 = ['/', '/'] then
    let netloc := (rest.drop 2).takeWhile (fun c => !(c = '/' || c = '?' || c = '#'))
    if (netloc.contains '[' != netloc.contains ']') then .error "Invalid IPv6 URL"
    else .ok netloc
  else .ok []

/-- `helpers.extract_domain`: `urlparse(url).netloc.lower()`.  The
`Except` carries the `ValueError` that `urlparse` raises on a malformed
IPv6 host. -/
def extract_domain (url : String) : Except String String :=
  (urlparseNetloc url.data).map (fun n => String.mk (pyLower n))

/-- Prefix test on character lists (`str.startswith`). -/
def leadsWith : List Char → List Char → Bool
  | _, [] => true
  | [], _ :: _ => false
  | a :: as, b :: bs => a = b && leadsWith as bs

/-- The scheme qualification at the top of `scrape_store`:
`website_url.startswith(('http://', 'https://'))` or prepend
`https://`. -/
def withScheme (url : String) : String :=
  if leadsWith url.data "http://".data || leadsWith url.data "https://".data then url
  else "https://" ++ url

/-- Occurrence of `sub` anywhere in the list (Python's `sub in hay`;
the empty string occurs in everything, as in Python). -/
def occursIn (sub : List Char) : List Char → Bool
  | [] => leadsWith [] sub
  | c :: rest => leadsWith (c :: rest) sub || occursIn sub rest

/-- Substring test (`needle in haystack` in Python). -/
def containsSub (hay sub : String) : Bool := occursIn sub.data hay.data

/-- `helpers.is_shopify_store`: empty content is not a store; any of the
fixed indicator tokens in the HTML suffices; otherwise a truthy URL
containing `myshopify.com` suffices. -/
def is_shopify_store (html : String) (url : String) : Bool :=
  if html = "" then false
  else if ["Shopify.theme", "shopify.com", "shopify-analytics", "cdn.shopify.com",
      "myshopify.com", "Shopify.shop", "window.Shopify"].any
      (fun ind => containsSub html ind) then true
  else if url ≠ "" && containsSub url "myshopify.com" then true
  else false

/-! ## The Fetcher (`ShopifyScraperService._fetch_page`)

Each attempt's interaction with the network is an `AttemptOutcome`:
either an HTTP response (status, optional `Retry-After` header, body)
or a `requests.RequestException` with a message.  The embedding records
the sleeps performed and the number of loop iterations used.
`response.raise_for_status()` raises `HTTPError` — a subclass of
`RequestException` — for every status in 400..599, so it is modelled as
routing those statuses to the same handler as a request error. -/

/-- `Config.MAX_RETRIES`. -/
def MAX_RETRIES : Nat := 3

/-- `Config.DELAY_BETWEEN_REQUESTS` (seconds). -/
def DELAY_BETWEEN_REQUESTS : Nat := 1

inductive AttemptOutcome where
  | response (status : Nat) (retryAfter : Option Nat) (body : String)
  | requestError (msg : String)

inductive SleepEvent where
  | backoff (seconds : Nat)
  | retryAfterWait (seconds : Nat)
deriving DecidableEq

def SleepEvent.seconds : SleepEvent → Nat
  | .backoff s => s
  | .retryAfterWait s => s

inductive FetchOutcome where
  | success (body : String)
  | networkError (msg : String)
  | noneReturned
deriving DecidableEq

/-- Result of a `_fetch_page` run: final outcome, the sleeps performed
in order, and the number of attempts consumed. -/
structure FetchRun where
  outcome : FetchOutcome
  sleeps : List SleepEvent
  attempts : Nat
deriving DecidableEq

/-- The message of `requests`' `HTTPError` raised by
`raise_for_status`. -/
def httpErrorMsg (status : Nat) : String := "HTTP error " ++ toString status

def backoffWait (attempt : Nat) : Nat := DELAY_BETWEEN_REQUESTS * 2 ^ attempt

/-- The body of `for attempt in range(Config.MAX_RETRIES)`.  The list
argument holds the remaining attempt indices, so an empty tail means
`attempt == Config.MAX_RETRIES - 1`.  The `status == 429` test is kept
exactly where the source has it: after `raise_for_status()`.  Falling
off the loop (every iteration hitting `continue`) returns Python's
implicit `None`, modelled as `noneReturned`. -/
def fetchPageGo (url : String) (outs : Nat → AttemptOutcome) :
    List Nat → FetchRun
  | [] => ⟨.noneReturned, [], 0⟩
  | attempt :: rest =>
    match outs attempt with
    | .requestError msg =>
      if rest.isEmpty then
        ⟨.networkError ("Failed to fetch " ++ url ++ ": " ++ msg), [], 1⟩
      else
        let k := fetchPageGo url outs rest
        ⟨k.outcome, .backoff (backoffWait attempt) :: k.sleeps, k.attempts + 1⟩
    | .response status retryAfter body =>
      if 400 ≤ status ∧ status ≤ 599 then
        if rest.isEmpty then
          ⟨.networkError ("Failed to fetch " ++ url ++ ": " ++ httpErrorMsg status), [], 1⟩
        else
          let k := fetchPageGo url outs rest
          ⟨k.outcome, .backoff (backoffWait attempt) :: k.sleeps, k.attempts + 1⟩
      else if status = 429 then
        let k := fetchPageGo url outs rest
        ⟨k.outcome, .retryAfterWait (retryAfter.getD 60) :: k.sleeps, k.attempts + 1⟩
      else ⟨.success body, [], 1⟩

/-- `_fetch_page`: run the attempt loop over `range(MAX_RETRIES)`. -/
def fetchPage (url : String) (outs : Nat → AttemptOutcome) : FetchRun :=
  fetchPageGo url outs (List.range MAX_RETRIES)

/-! ## Catalog fetcher (`ShopifyScraperService._get_product_catalog`) -/

/-- `urljoin(base, path)` for the rooted paths the source uses
(`/products.json`, `/products/<handle>`): keep the base's scheme and
network location, replace the rest by `path`. -/
def urljoinRooted (base path : String) : String :=
  let rest := splitSchemeRest base.data
  let schemePart := base.data.take (base.data.length - rest.length)
  if rest.take 2 = ['/', '/'] then
    let netloc := (rest.drop 2).takeWhile (fun c => !(c = '/' || c = '?' || c = '#'))
    String.mk (schemePart ++ '/' :: '/' :: netloc ++ path.data)
  else String.mk (schemePart ++ path.data)

structure RawVariant where
  price : Option String
  compareAtPrice : Option String
deriving DecidableEq

structure RawImage where
  src : Option String
deriving DecidableEq

/-- The platform's `tags` field: absent, a comma-separated string, or a
list. -/
inductive TagsRepr where
  | absent
  | fromString (s : String)
  | fromList (l : List String)
deriving DecidableEq

/-- One JSON product object from `<site>/products.json`; `Option` marks
keys that may be absent or null. -/
structure RawProduct where
  shopifyId : Option Nat
  title : Option String
  handle : Option String
  bodyHtml : Option String
  vendor : Option String
  productType : Option String
  tags : TagsRepr
  createdAt : Option String
  updatedAt : Option String
  available : Option Bool
  variants : List RawVariant
  images : List RawImage
  options : List String
deriving DecidableEq

/-- The normalized product record built in the body of the pagination
loop. -/
structure CatalogProduct where
  shopifyId : Option Nat
  title : Option String
  handle : Option String
  description : String
  vendor : Option String
  productType : Option String
  tags : List String
  productUrl : String
  createdAt : Option String
  updatedAt : Option String
  available : Bool
  variants : List RawVariant
  images : List RawImage
  options : List String
  price : Option String
  compareAtPrice : Option String
  featuredImage : Option String
deriving DecidableEq

/-- The per-product normalization in `_get_product_catalog`: tags split
on commas when a non-empty string and passed through when a list;
price/compare-at from the first variant when variants exist; featured
image from the first image; the product URL built from the handle
(Python renders a missing handle as the string `None`). -/
def normalizeProduct (websiteUrl : String) (p : RawProduct) : CatalogProduct :=
  { shopifyId := p.shopifyId
    title := p.title
    handle := p.handle
    description := cleanTextS (p.bodyHtml.getD "")
    vendor := p.vendor
    productType := p.productType
    tags :=
      match p.tags with
      | .fromString s => if s ≠ "" then s.splitOn "," else []
      | .fromList l => l
      | .absent => []
    productUrl := urljoinRooted websiteUrl ("/products/" ++ p.handle.getD "None")
    createdAt := p.createdAt
    updatedAt := p.updatedAt
    available := p.available.getD true
    variants := p.variants
    images := p.images
    options := p.options
    price := p.variants.head?.bind (fun v => v.price)
    compareAtPrice := p.variants.head?.bind (fun v => v.compareAtPrice)
    featuredImage := p.images.head?.bind (fun i => i.src) }

/-- Outcome of requesting one catalog page: parsed JSON whose
`products` value is a list, a JSON parse failure, or a raised fetch
error. -/
inductive PageResp where
  | ok (products : List RawProduct)
  | badJson
  | fetchFail (msg : String)

/-- Why the pagination loop stopped. -/
inductive TermKind where
  | emptyPage
  | parseFailure
  | fetchFailure
deriving DecidableEq

/-- Result of a catalog run: accumulated normalized products, the
`(page, limit)` requests issued in order, and the loop's termination
cause (`none` when the supplied response trace ran out before the loop
stopped). -/
structure CatalogRun where
  products : List CatalogProduct
  requests : List (Nat × Nat)
  term : Option TermKind
deriving DecidableEq

/-- The `while True` pagination loop: request `(page, limit=250)`,
parse; an empty `products` array stops the loop (normal termination);
a JSON parse failure breaks the loop; a raised fetch error is caught
by the enclosing handler, which returns the accumulated products.
Each iteration issues exactly one request and `page` increases by 1
only when the loop continues. -/
def getProductCatalogGo (url : String) :
    List PageResp → Nat → List CatalogProduct → List (Nat × Nat) → CatalogRun
  | [], _, acc, reqs => ⟨acc, reqs, none⟩
  | r :: rest, page, acc, reqs =>
    match r with
    | .fetchFail _ => ⟨acc, reqs ++ [(page, 250)], some .fetchFailure⟩
    | .badJson => ⟨acc, reqs ++ [(page, 250)], some .parseFailure⟩
    | .ok [] => ⟨acc, reqs ++ [(page, 250)], some .emptyPage⟩
    | .ok (p :: ps) =>
      getProductCatalogGo url rest (page + 1)
        (acc ++ (p :: ps).map (normalizeProduct url)) (reqs ++ [(page, 250)])

/-- `_get_product_catalog`: start at page 1 with nothing accumulated. -/
def getProductCatalog (url : String) (trace : List PageResp) : CatalogRun :=
  getProductCatalogGo url trace 1 [] []

/-! ## Brand-name extraction (`ShopifyScraperService._extract_basic_info`)

The parsed homepage is abstracted to the pieces this pass consults:
the `<title>` text, the `content` attributes of the
`og:site_name`/`twitter:site` meta tags in document order, and the
header logo element found by
`header.find(['img','h1','h2'], {'alt': True, 'title': True})` (which
requires both attributes present). -/

structure LogoElem where
  alt : String
  titleAttr : String
  text : String
deriving DecidableEq

structure HtmlDoc where
  titleTag : Option String
  metaSiteContents : List (Option String)
  headerLogo : Option LogoElem
deriving DecidableEq

/-- The meta loop: the first meta tag among the matched ones whose
`content` is truthy wins (assign and break). -/
def findTruthyMeta : List (Option String) → Option String
  | [] => none
  | none :: rest => findTruthyMeta rest
  | some c :: rest => if c ≠ "" then some c else findTruthyMeta rest

/-- `extract_domain(website_url).split('.')[0].title()`, the final
fallback.  In the scrape flow the URL's domain extraction has already
succeeded (`scrape_store` computed it before parsing), so the error
branch is unreachable there. -/
def domainFirstLabel (websiteUrl : String) : String :=
  match extract_domain websiteUrl with
  | .ok d => String.mk (pyTitle (d.data.takeWhile (fun c => c ≠ '.')))
  | .error _ => ""

/-- The brand-name logic of `_extract_basic_info`, line for line:
`brand_name` is set from the `<title>` text when a title tag exists;
the meta loop then runs unconditionally and overwrites it when some
matched meta has truthy content; the header-logo and domain fallbacks
run only when `brand_name` is still falsy.  A `None` brand name and an
empty-string one are interchangeable here (both falsy, and the meta
loop ignores the current value), so the working value is a `String`
with `""` for `None`. -/
def extract_brand_name (doc : HtmlDoc) (websiteUrl : String) : String :=
  let fromTitle : String :=
    match doc.titleTag with
    | some t => cleanTextS t
    | none => ""
  let fromMeta : String :=
    match findTruthyMeta doc.metaSiteContents with
    | some c => cleanTextS c
    | none => fromTitle
  let fromLogo : String :=
    if fromMeta = "" then
      match doc.headerLogo with
      | some logo =>
        cleanTextS (if logo.alt ≠ "" then logo.alt
          else if logo.titleAttr ≠ "" then logo.titleAttr else logo.text)
      | none => fromMeta
    else fromMeta
  if fromLogo = "" then domainFirstLabel websiteUrl else fromLogo

/-! ## Contact-email extraction (`_extract_contact_info` and
`helpers.extract_email_addresses`)

`re.findall` over the email pattern returns the matches in document
order, possibly with duplicates; `extract_email_addresses` then returns
`list(set(matches))` — a duplicate-free list whose order is the
iteration order of a Python `set`, which (string hashing being
randomized) is unconstrained.  The match list is the input here and the
set conversion is any list related to it by `isSetList`. -/

def subsetB (l1 l2 : List String) : Bool := l1.all (fun x => l2.contains x)

def nodupB : List String → Bool
  | [] => true
  | x :: xs => !xs.contains x && nodupB xs

/-- `out` is a possible value of `list(set(inp))`: duplicate-free, same
members. -/
def isSetList (inp out : List String) : Prop :=
  nodupB out = true ∧ subsetB out inp = true ∧ subsetB inp out = true

/-- The skip tokens of `_extract_contact_info`. -/
def emailSkipTokens : List String := ["no-reply", "noreply", "donotreply", "example.com"]

/-- `not any(skip in email.lower() for skip in ...)`. -/
def emailKeep (e : String) : Bool :=
  !(emailSkipTokens.any (fun t => containsSub (String.mk (pyLower e.data)) t))

def emailFiltered (emails : List String) : List String := emails.filter emailKeep

/-- The choice in `_extract_contact_info`: no key when no emails were
found; otherwise the first filtered email, else the first email. -/
def chooseContactEmail (emails : List String) : Option String :=
  match emails with
  | [] => none
  | e :: _ =>
    match emailFiltered emails with
    | f :: _ => some f
    | [] => some e

/-- The claim's reading of the choice: first document-order occurrence
after filtering, else first overall («first» = first occurrence in the
scanned document).  Stated from the spec's words for comparison with
the source's behaviour. -/
def claimedContactEmail (found : List String) : Option String :=
  match found with
  | [] => none
  | e :: _ =>
    match emailFiltered found with
    | f :: _ => some f
    | [] => some e

/-! ## `ShopifyScraperService.scrape_store`

External interactions are parameters: the homepage fetch outcome, the
parsed document (abstracted to what brand-name extraction consults) and
the catalog endpoint's response trace.  A `.raises` models a raised
Python exception, carried as its message.  The elided extraction passes
(contact info, socials, links, policies, FAQs, hero products) are total
functions of the parsed document — each guards its own page fetches
with an internal handler — so they add result keys but no exception
and no claim-relevant state. -/

inductive StepOutcome (α : Type) where
  | ok (a : α)
  | raises (msg : String)

/-- The scrape result dictionary, restricted to the claim-relevant
keys.  `domain`/`name` are `Option` because the competitor failure
dictionary omits them; `productCatalog = none` models an absent
`product_catalog` key. -/
structure ScrapeResult where
  websiteUrl : String
  domain : Option String
  isShopifyStore : Bool
  scrapingStatus : String
  scrapingErrors : Option String
  name : Option String
  productCatalog : Option (List CatalogProduct)
deriving DecidableEq

structure ScrapeEnv where
  fetchHome : StepOutcome String
  doc : HtmlDoc
  catalogTrace : List PageResp

/-- `scrape_store`.  The URL is scheme-qualified first; `extract_domain`
may raise (`ValueError` from `urlparse`) — in that case the catch-all
handler evaluates `extract_domain(website_url)` again (since `domain`
is not in `locals()`), which raises the same error, and the exception
escapes the method: hence the `.error` result.  When the domain was
extracted, a raised homepage fetch is caught and produces the failure
dictionary; otherwise the completed dictionary is built, fetching the
catalog only for detected Shopify stores (`_get_product_catalog`
catches every exception internally and returns its partial list). -/
def scrape_store (websiteUrl : String) (env : ScrapeEnv) : Except String ScrapeResult :=
  let url := withScheme websiteUrl
  match extract_domain url with
  | .error e => .error e
  | .ok domain =>
    match env.fetchHome with
    | .raises e =>
      .ok { websiteUrl := url, domain := some domain, isShopifyStore := false,
            scrapingStatus := "failed", scrapingErrors := some e,
            name := none, productCatalog := none }
    | .ok html =>
      let shop := is_shopify_store html url
      .ok { websiteUrl := url, domain := some domain, isShopifyStore := shop,
            scrapingStatus := "completed", scrapingErrors := none,
            name := some (extract_brand_name env.doc url),
            productCatalog :=
              if shop then some (getProductCatalog url env.catalogTrace).products else none }

/-! ## Persistence model (`app/models` + `BrandAnalyzerService`)

The datastore is an explicit record of rows.  Commits that the claims
do not make fallible are applied immediately; the fallible externals of
`analyze_brand` are the scrape call, the final
status-`completed` commit, and the analysis insert. -/

structure BrandRow where
  id : Nat
  domain : String
  websiteUrl : String
  name : Option String
  scrapingStatus : String
  scrapingErrors : Option String
deriving DecidableEq

/-- A `products` row as built in `_save_products` (the claim-irrelevant
mirrored columns follow the same field-for-field copy). -/
structure ProductRow where
  brandId : Nat
  shopifyId : Option Nat
  handle : Option String
  title : Option String
  description : String
  vendor : Option String
  productType : Option String
  tags : List String
  price : Option String
  compareAtPrice : Option String
  productUrl : String
  imageUrls : List (Option String)
  featuredImage : Option String
  available : Bool
  variants : List RawVariant
deriving DecidableEq

def mkProductRow (bid : Nat) (p : CatalogProduct) : ProductRow :=
  { brandId := bid, shopifyId := p.shopifyId, handle := p.handle, title := p.title,
    description := p.description, vendor := p.vendor, productType := p.productType,
    tags := p.tags, price := p.price, compareAtPrice := p.compareAtPrice,
    productUrl := p.productUrl, imageUrls := p.images.map (fun i => i.src),
    featuredImage := p.featuredImage, available := p.available, variants := p.variants }

/-- A `competitors` row (`_save_competitor`; the remaining mirrored
fact columns are copied the same way and play no role in the claims). -/
structure CompetitorRow where
  brandId : Nat
  name : Option String
  websiteUrl : String
  domain : Option String
  scrapingStatus : String
  scrapingErrors : Option String
deriving DecidableEq

structure DataStore where
  brands : List BrandRow
  products : List ProductRow
  competitors : List CompetitorRow
  nextBrandId : Nat
deriving DecidableEq

/-- `Brand.query.filter_by(domain=domain).first()`. -/
def findBrand (db : DataStore) (d : String) : Option BrandRow :=
  db.brands.find? (fun b => b.domain = d)

/-- Mutating the ORM object with id `i` and committing. -/
def setBrand (db : DataStore) (i : Nat) (f : BrandRow → BrandRow) : DataStore :=
  { db with brands := db.brands.map (fun b => if b.id = i then f b else b) }

/-- `_save_products`: delete every product row of the brand, then
insert one row per catalog entry, in order. -/
def saveProducts (db : DataStore) (bid : Nat) (ps : List CatalogProduct) : DataStore :=
  { db with products :=
      db.products.filter (fun p => p.brandId ≠ bid) ++ ps.map (mkProductRow bid) }

/-- A fresh `Brand()` (column defaults; the fields the flow assigns
are overwritten immediately afterwards). -/
def freshBrand (i : Nat) : BrandRow :=
  { id := i, domain := "", websiteUrl := "", name := none,
    scrapingStatus := "pending", scrapingErrors := none }

/-- `LLMProcessorService.process_brand_context` catches all its own
exceptions and only ever adds an `llm_analysis` key; every modelled
field — in particular `product_catalog` and `scraping_status` — passes
through unchanged. -/
def llmProcess (d : ScrapeResult) : ScrapeResult := d

/-- `_update_brand_from_scraped_data`, restricted to the modelled
columns (the others are copied field-for-field the same way). -/
def updateBrandFromScraped (b : BrandRow) (d : ScrapeResult) : BrandRow :=
  { b with name := d.name }

/-- The status/URL assignment before the first commit (`in_progress`,
persisted before any network I/O). -/
def inProgressUpd (url d : String) (b : BrandRow) : BrandRow :=
  { b with scrapingStatus := "in_progress", websiteUrl := url, domain := d }

/-- The failure assignment of the exception handler and of the
failed-scrape early return. -/
def failUpd (e : Option String) (b : BrandRow) : BrandRow :=
  { b with scrapingStatus := "failed", scrapingErrors := e }

/-- The success assignment at the end of the flow (`completed`,
`last_scraped` updated — the timestamp is not modelled). -/
def completedUpd (b : BrandRow) : BrandRow :=
  { b with scrapingStatus := "completed" }

/-- The upsert step: reuse the brand found by domain, else add a fresh
row (committed). -/
def upsertStore (db : DataStore) (d : String) : DataStore :=
  match findBrand db d with
  | some _ => db
  | none =>
    { db with brands := db.brands ++ [freshBrand db.nextBrandId],
              nextBrandId := db.nextBrandId + 1 }

/-- The brand id the flow works with for domain `d`: the id of the
first existing row with that domain, else the id the fresh row
receives. -/
def upsertBrandId (db : DataStore) (d : String) : Nat :=
  match findBrand db d with
  | some b => b.id
  | none => db.nextBrandId

/-! ## Competitor flow (`CompetitorAnalyzerService.analyze_competitor`
and `BrandAnalyzerService._analyze_competitors`) -/

/-- The three-key dictionary `analyze_competitor` returns from its
handler (no `domain`/`name` keys; a missing `is_shopify_store` key
reads as `False` downstream). -/
def failedCompetitorResult (url msg : String) : ScrapeResult :=
  { websiteUrl := url, domain := none, isShopifyStore := false,
    scrapingStatus := "failed", scrapingErrors := some msg,
    name := none, productCatalog := none }

/-- `analyze_competitor`: a raised scrape (network error included) is
caught and turned into the failure dictionary; a failed scrape result
is returned as is; a completed one is enriched (the added
`competitor_analysis` key is claim-irrelevant). -/
def analyzeCompetitor (url : String) (outcome : StepOutcome ScrapeResult) : ScrapeResult :=
  match outcome with
  | .raises m => failedCompetitorResult url m
  | .ok d => if d.scrapingStatus = "failed" then d else llmProcess d

def mkCompetitorRow (bid : Nat) (d : ScrapeResult) : CompetitorRow :=
  { brandId := bid, name := d.name, websiteUrl := d.websiteUrl, domain := d.domain,
    scrapingStatus := d.scrapingStatus, scrapingErrors := d.scrapingErrors }

/-- The loop of `_analyze_competitors`: for each competitor URL run
`analyze_competitor`; only when its status is `completed` is a row
saved and its dictionary appended to the returned list. -/
def analyzeCompetitorsGo (bid : Nat) :
    List (String × StepOutcome ScrapeResult) → DataStore → List CompetitorRow →
      List CompetitorRow × DataStore
  | [], db, acc => (acc, db)
  | (url, oc) :: rest, db, acc =>
    let d := analyzeCompetitor url oc
    if d.scrapingStatus = "completed" then
      let row := mkCompetitorRow bid d
      analyzeCompetitorsGo bid rest
        { db with competitors := db.competitors ++ [row] } (acc ++ [row])
    else analyzeCompetitorsGo bid rest db acc

def analyzeCompetitors (bid : Nat) (envs : List (String × StepOutcome ScrapeResult))
    (db : DataStore) : List CompetitorRow × DataStore :=
  analyzeCompetitorsGo bid envs db []

/-! ## `BrandAnalyzerService.analyze_brand` -/

structure AnalyzeEnv where
  scrape : StepOutcome ScrapeResult
  finalCommit : StepOutcome Unit
  saveAnalysis : StepOutcome Unit

/-- The dictionary `analyze_brand` returns, restricted to the
claim-relevant keys (`brand_data` and the competitive report are
elided). -/
structure AnalyzeOutput where
  error : Option String
  brandId : Option Nat
  analysisStatus : Option String
  competitors : Option (List CompetitorRow)
deriving DecidableEq

/-- `analyze_brand`.  The upsert: look up the brand by
`extract_domain(website_url)` (of the raw input URL), reuse it or add a
fresh row; set status `in_progress` and commit before any network I/O.
A failed scrape dictionary takes the early-return path; a raised
exception anywhere after the brand is bound lands in the catch-all
handler, which (since `'brand' in locals()`) forces status `failed`,
attaches the message, and still returns the brand id.  Products are
replaced only when the processed data's `product_catalog` is truthy,
i.e. a non-empty list.  `extract_domain` raising before the brand is
bound returns a bare error dictionary.  The fallible externals are the
scrape call, the status-`completed` commit and the analysis insert; a
failed commit persists nothing of that commit (the handler's own
commit then persists the failure state). -/
def analyze_brand (url : String) (includeCompetitors : Bool) (env : AnalyzeEnv)
    (competitorEnvs : List (String × StepOutcome ScrapeResult)) (db : DataStore) :
    AnalyzeOutput × DataStore :=
  match extract_domain url with
  | .error e => (⟨some e, none, none, none⟩, db)
  | .ok domain =>
    let bid := upsertBrandId db domain
    let db2 := setBrand (upsertStore db domain) bid (inProgressUpd url domain)
    match env.scrape with
    | .raises m =>
      (⟨some m, some bid, none, none⟩, setBrand db2 bid (failUpd (some m)))
    | .ok scraped =>
      if scraped.scrapingStatus = "failed" then
        (⟨some "Failed to scrape brand data", some bid, none, none⟩,
         setBrand db2 bid (failUpd scraped.scrapingErrors))
      else
        let processed := llmProcess scraped
        let db3 := setBrand db2 bid (fun b => updateBrandFromScraped b processed)
        let db4 :=
          match processed.productCatalog with
          | some (p :: ps) => saveProducts db3 bid (p :: ps)
          | _ => db3
        match env.finalCommit with
        | .raises m =>
          (⟨some m, some bid, none, none⟩, setBrand db4 bid (failUpd (some m)))
        | .ok _ =>
          let db5 := setBrand db4 bid completedUpd
          if includeCompetitors then
            let rowsAndDb := analyzeCompetitors bid competitorEnvs db5
            match env.saveAnalysis with
            | .raises m =>
              (⟨some m, some bid, none, none⟩,
               setBrand rowsAndDb.2 bid (failUpd (some m)))
            | .ok _ => (⟨none, some bid, some "completed", some rowsAndDb.1⟩, rowsAndDb.2)
          else (⟨none, some bid, some "completed", none⟩, db5)

/-! ## Auxiliary definitions used by the statements -/

/-- Declarative form of «`i` is the index of the last space of `l`». -/
def lastSpaceSpec (l : List Char) (i : Nat) : Prop :=
  l.get? i = some ' ' ∧ ∀ j, i < j → l.get? j ≠ some ' '

/-- Lookup of a brand row by id (first match). -/
def findBrandById (db : DataStore) (i : Nat) : Option BrandRow :=
  db.brands.find? (fun b => b.id = i)

/-- An empty datastore, for the concrete scenarios. -/
def emptyStore : DataStore := ⟨[], [], [], 0⟩

/-- A concrete raw product for the concrete scenarios. -/
def sampleRaw : RawProduct :=
  { shopifyId := some 11, title := some "Tee", handle := some "tee",
    bodyHtml := some "soft", vendor := some "Acme", productType := some "Shirt",
    tags := .fromList ["a", "b"], createdAt := none, updatedAt := none,
    available := some true, variants := [⟨some "10.00", none⟩],
    images := [⟨some "https://img/1"⟩], options := [] }

/-- A concrete completed scrape dictionary for a competitor. -/
def sampleCompletedResult : ScrapeResult :=
  { websiteUrl := "https://c2.com", domain := some "c2.com", isShopifyStore := true,
    scrapingStatus := "completed", scrapingErrors := none, name := some "C2",
    productCatalog := some [] }

/-- A completed scrape result for the brand itself, with a choosable
catalog, for the concrete scenarios. -/
def sampleBrandResult (cat : Option (List CatalogProduct)) : ScrapeResult :=
  { websiteUrl := "https://acme.com", domain := some "acme.com", isShopifyStore := true,
    scrapingStatus := "completed", scrapingErrors := none, name := some "Acme",
    productCatalog := cat }

/-- An `AnalyzeEnv` whose externals all succeed. -/
def okEnv (r : ScrapeResult) : AnalyzeEnv := ⟨.ok r, .ok (), .ok ()⟩

/-- The rows the competitor batch saves: one per competitor whose
analysis dictionary has status `completed`, in order. -/
def completedRows (bid : Nat) (envs : List (String × StepOutcome ScrapeResult)) :
    List CompetitorRow :=
  ((envs.map (fun e => analyzeCompetitor e.1 e.2)).filter
    (fun d => d.scrapingStatus = "completed")).map (mkCompetitorRow bid)

/-! # Theorems -/

/-! Correctness of `lastIdxOf`: it returns the greatest index holding
the character. -/

theorem lastIdxOf_mem {c : Char} : ∀ {l : List Char} {i : Nat},
    lastIdxOf c l = some i → l.get? i = some c := by
  intro l
  induction l with
  | nil => intro i h; simp [lastIdxOf] at h
  | cons x xs ih =>
    intro i h
    simp only [lastIdxOf] at h
    cases hx : lastIdxOf c xs with
    | some j =>
      rw [hx] at h
      cases h
      simpa using ih hx
    | none =>
      rw [hx] at h
      by_cases hxc : x = c
      · simp [hxc] at h
        subst h
        simp [hxc]
      · simp [hxc] at h

theorem lastIdxOf_eq_none {c : Char} : ∀ {l : List Char},
    lastIdxOf c l = none → ∀ j, l.get? j ≠ some c := by
  intro l
  induction l with
  | nil => intro _ j hc; simp at hc
  | cons y ys ih =>
    intro hx j hc
    simp only [lastIdxOf] at hx
    cases hy : lastIdxOf c ys with
    | some k => rw [hy] at hx; simp at hx
    | none =>
      rw [hy] at hx
      by_cases hyc : y = c
      · simp [hyc] at hx
      · match j with
        | 0 => simp at hc; exact hyc hc
        | j + 1 => exact ih hy j (by simpa using hc)

theorem lastIdxOf_greatest {c : Char} : ∀ {l : List Char} {i : Nat},
    lastIdxOf c l = some i → ∀ j, i < j → l.get? j ≠ some c := by
  intro l
  induction l with
  | nil => intro i h; simp [lastIdxOf] at h
  | cons x xs ih =>
    intro i h j hij
    simp only [lastIdxOf] at h
    cases hx : lastIdxOf c xs with
    | some k =>
      rw [hx] at h
      cases h
      match j, hij with
      | j + 1, hij =>
        simpa using ih hx j (Nat.lt_of_succ_lt_succ hij)
    | none =>
      rw [hx] at h
      by_cases hxc : x = c
      · simp [hxc] at h
        subst h
        match j, hij with
        | j + 1, _ =>
          simpa using lastIdxOf_eq_none hx j
      · simp [hxc] at h


theorem lastIdxOf_spec {l : List Char} {i : Nat} (h : lastIdxOf ' ' l = some i) :
    lastSpaceSpec l i :=
  ⟨lastIdxOf_mem h, lastIdxOf_greatest h⟩

theorem lastSpaceSpec_eq {l : List Char} {i j : Nat}
    (h : lastIdxOf ' ' l = some i) (hj : lastSpaceSpec l j) : j = i := by
  rcases Nat.lt_trichotomy j i with hlt | heq | hgt
  · exact absurd (lastIdxOf_mem h) (hj.2 i hlt)
  · exact heq
  · exact absurd hj.1 (lastIdxOf_greatest h j hgt)

/-- C9: for every string `s` and limit `L` (the program uses 2000 for
policy texts and 500 for FAQ answers): when `s` is empty or within the
limit, `truncate_text` returns it unchanged; otherwise the result is
the first `L` characters, cut back to the last space when that space's
index lies strictly beyond `0.8 * L` (`5 * i > 4 * L`), with the
ellipsis marker appended. -/
theorem truncate_text_contract (s : List Char) (L : Nat) :
    (s = [] ∨ s.length ≤ L → truncate_text s L = s) ∧
    (L < s.length →
      ((∃ i, lastSpaceSpec (s.take L) i ∧ 5 * i > 4 * L ∧
          truncate_text s L = (s.take L).take i ++ ('.' :: '.' :: '.' :: [])) ∨
       ((∀ i, lastSpaceSpec (s.take L) i → 5 * i ≤ 4 * L) ∧
          truncate_text s L = s.take L ++ ('.' :: '.' :: '.' :: [])))) := by
  constructor
  · intro h
    unfold truncate_text
    rw [if_pos h]
  · intro hL
    have hcond : ¬(s = [] ∨ s.length ≤ L) := by
      rintro (rfl | hle)
      · simp at hL
      · omega
    cases hx : lastIdxOf ' ' (s.take L) with
    | some i =>
      by_cases hgt : 5 * i > 4 * L
      · left
        refine ⟨i, lastIdxOf_spec hx, hgt, ?_⟩
        unfold truncate_text
        rw [if_neg hcond]
        simp only [hx, hgt, if_pos]
      · right
        constructor
        · intro j hj
          rw [lastSpaceSpec_eq hx hj]
          omega
        · unfold truncate_text
          rw [if_neg hcond]
          simp only [hx, if_neg hgt]
    | none =>
      right
      constructor
      · intro j hj
        exact absurd hj.1 (lastIdxOf_eq_none hx j)
      · unfold truncate_text
        rw [if_neg hcond]
        simp only [hx]

theorem truncate_text_contract_witness :
    truncate_text "ab".data 500 = "ab".data :=
  (truncate_text_contract "ab".data 500).1 (Or.inr (by decide))

/-! ## Fetcher lemmas -/

/-- One-step equation for `fetchPageGo` on a non-empty attempt list. -/
theorem fetchPageGo_cons (url : String) (outs : Nat → AttemptOutcome)
    (a : Nat) (rest : List Nat) :
    fetchPageGo url outs (a :: rest) =
      match outs a with
      | .requestError msg =>
        if rest.isEmpty then
          ⟨.networkError ("Failed to fetch " ++ url ++ ": " ++ msg), [], 1⟩
        else
          let k := fetchPageGo url outs rest
          ⟨k.outcome, .backoff (backoffWait a) :: k.sleeps, k.attempts + 1⟩
      | .response status retryAfter body =>
        if 400 ≤ status ∧ status ≤ 599 then
          if rest.isEmpty then
            ⟨.networkError ("Failed to fetch " ++ url ++ ": " ++ httpErrorMsg status), [], 1⟩
          else
            let k := fetchPageGo url outs rest
            ⟨k.outcome, .backoff (backoffWait a) :: k.sleeps, k.attempts + 1⟩
        else if status = 429 then
          let k := fetchPageGo url outs rest
          ⟨k.outcome, .retryAfterWait (retryAfter.getD 60) :: k.sleeps, k.attempts + 1⟩
        else ⟨.success body, [], 1⟩ := rfl

theorem fetchPageGo_attempts_le (url : String) (outs : Nat → AttemptOutcome) :
    ∀ l : List Nat, (fetchPageGo url outs l).attempts ≤ l.length := by
  intro l
  induction l with
  | nil => simp [fetchPageGo]
  | cons a rest ih =>
    rw [fetchPageGo_cons]
    cases houts : outs a with
    | requestError m =>
      cases rest with
      | nil => simp
      | cons r rs => simpa using Nat.succ_le_succ ih
    | response status ra body =>
      by_cases h1 : 400 ≤ status ∧ status ≤ 599
      · cases rest with
        | nil => simp [h1]
        | cons r rs =>
          simpa [h1] using Nat.succ_le_succ ih
      · have h2 : status ≠ 429 := by
          intro h
          subst h
          exact h1 ⟨by norm_num, by norm_num⟩
        simp [h1, h2]

theorem fetchPageGo_sleeps_shape (url : String) (outs : Nat → AttemptOutcome) :
    ∀ n a : Nat, ∃ k, (fetchPageGo url outs (List.range' a n)).sleeps =
      (List.range' a k).map (fun i => SleepEvent.backoff (backoffWait i)) := by
  intro n
  induction n with
  | zero => exact fun a => ⟨0, by simp [fetchPageGo]⟩
  | succ n ih =>
    intro a
    rw [List.range'_succ, fetchPageGo_cons]
    cases houts : outs a with
    | requestError m =>
      cases hr : List.range' (a + 1) n with
      | nil => exact ⟨0, by simp⟩
      | cons r rs =>
        obtain ⟨k, hk⟩ := ih (a + 1)
        rw [hr] at hk
        refine ⟨k + 1, ?_⟩
        simp [hk, List.range'_succ]
    | response status ra body =>
      by_cases h1 : 400 ≤ status ∧ status ≤ 599
      · cases hr : List.range' (a + 1) n with
        | nil => exact ⟨0, by simp [h1]⟩
        | cons r rs =>
          obtain ⟨k, hk⟩ := ih (a + 1)
          rw [hr] at hk
          refine ⟨k + 1, ?_⟩
          simp [hk, h1, List.range'_succ]
      · have h2 : status ≠ 429 := by
          intro h
          subst h
          exact h1 ⟨by norm_num, by norm_num⟩
        exact ⟨0, by simp [h1, h2]⟩

theorem chain_backoffWait : ∀ k a : Nat,
    List.Chain' (fun x y => x < y) ((List.range' a k).map backoffWait) := by
  intro k
  induction k with
  | zero => intro a; simp
  | succ k ih =>
    intro a
    rw [List.range'_succ, List.map_cons]
    rw [List.chain'_cons']
    refine ⟨?_, ih (a + 1)⟩
    intro b hb
    cases k with
    | zero => simp at hb
    | succ k =>
      rw [List.range'_succ, List.map_cons] at hb
      simp only [List.head?_cons, Option.mem_def, Option.some.injEq] at hb
      subst hb
      simpa [backoffWait, DELAY_BETWEEN_REQUESTS] using
        Nat.pow_lt_pow_right (a := 2) (by norm_num) (Nat.lt_succ_self a)

/-- C5: for every URL, at most `MAX_RETRIES = 3` attempts occur; every
sleep performed is the exponential backoff `base_delay * 2 ^ k` for
consecutive failing attempts `k = 0, 1, …`, so the successive delays
strictly increase; on three consecutive request-level failures the
result is `NetworkError` carrying the last underlying error, after
exactly 3 attempts and sleeps of 1 and 2 seconds. -/
theorem fetch_retry_contract :
    (∀ url outs, (fetchPage url outs).attempts ≤ MAX_RETRIES) ∧
    (∀ url outs, ∃ k, (fetchPage url outs).sleeps =
      (List.range k).map (fun i => SleepEvent.backoff (DELAY_BETWEEN_REQUESTS * 2 ^ i))) ∧
    (∀ url outs, List.Chain' (fun x y => x < y)
      ((fetchPage url outs).sleeps.map SleepEvent.seconds)) ∧
    (∀ url m0 m1 m2,
      fetchPage url
          (fun i => .requestError (if i = 0 then m0 else if i = 1 then m1 else m2)) =
        ⟨.networkError ("Failed to fetch " ++ url ++ ": " ++ m2),
         [.backoff (DELAY_BETWEEN_REQUESTS * 2 ^ 0), .backoff (DELAY_BETWEEN_REQUESTS * 2 ^ 1)],
         3⟩) := by
  refine ⟨?_, ?_, ?_, ?_⟩
  · intro url outs
    simpa [MAX_RETRIES] using fetchPageGo_attempts_le url outs (List.range MAX_RETRIES)
  · intro url outs
    obtain ⟨k, hk⟩ := fetchPageGo_sleeps_shape url outs MAX_RETRIES 0
    refine ⟨k, ?_⟩
    rw [fetchPage, List.range_eq_range', hk, ← List.range_eq_range']
    simp [backoffWait]
  · intro url outs
    obtain ⟨k, hk⟩ := fetchPageGo_sleeps_shape url outs MAX_RETRIES 0
    rw [fetchPage, List.range_eq_range', hk]
    have : ((List.range' 0 k).map (fun i => SleepEvent.backoff (backoffWait i))).map
        SleepEvent.seconds = (List.range' 0 k).map backoffWait := by
      simp [SleepEvent.seconds]
    rw [this]
    exact chain_backoffWait k 0
  · intro url m0 m1 m2
    rfl

/-- C4: the `Retry-After` branch of `_fetch_page` is dead code —
`raise_for_status()` raises `HTTPError` on a 429 before the
`status_code == 429` test is reached.  Every sleep any run performs is
an exponential-backoff sleep (never a `Retry-After` wait), and a
persistent 429 consumes all three attempts with backoff sleeps of 1 and
2 seconds (never the 5 seconds of `Retry-After: 5`) and ends in
`NetworkError`. -/
theorem fetch_429_dead_branch :
    (∀ url outs, ∃ k, (fetchPage url outs).sleeps =
      (List.range k).map (fun i => SleepEvent.backoff (DELAY_BETWEEN_REQUESTS * 2 ^ i))) ∧
    (∀ url, fetchPage url (fun _ => .response 429 (some 5) "") =
      ⟨.networkError ("Failed to fetch " ++ url ++ ": " ++ httpErrorMsg 429),
       [.backoff (DELAY_BETWEEN_REQUESTS * 2 ^ 0), .backoff (DELAY_BETWEEN_REQUESTS * 2 ^ 1)],
       3⟩) := by
  constructor
  · intro url outs
    obtain ⟨k, hk⟩ := fetchPageGo_sleeps_shape url outs MAX_RETRIES 0
    refine ⟨k, ?_⟩
    rw [fetchPage, List.range_eq_range', hk, ← List.range_eq_range']
    simp [backoffWait]
  · intro url
    rfl

/-! ## Catalog pagination -/

theorem getProductCatalogGo_full (url : String) :
    ∀ pages : List (List RawProduct), (∀ p ∈ pages, p ≠ []) →
      ∀ (page : Nat) (acc : List CatalogProduct) (reqs : List (Nat × Nat)),
        getProductCatalogGo url (pages.map PageResp.ok ++ [PageResp.ok []]) page acc reqs =
          ⟨acc ++ (pages.map (fun ps => ps.map (normalizeProduct url))).flatten,
           reqs ++ (List.range' page (pages.length + 1)).map (fun n => (n, 250)),
           some TermKind.emptyPage⟩ := by
  intro pages
  induction pages with
  | nil =>
    intro _ page acc reqs
    simp [getProductCatalogGo]
  | cons ps rest ih =>
    intro hne page acc reqs
    obtain ⟨q, qs, rfl⟩ : ∃ q qs, ps = q :: qs := by
      cases ps with
      | nil => exact absurd rfl (hne [] (by simp))
      | cons q qs => exact ⟨q, qs, rfl⟩
    rw [List.map_cons, List.cons_append]
    rw [show getProductCatalogGo url
          (PageResp.ok (q :: qs) :: (rest.map PageResp.ok ++ [PageResp.ok []])) page acc reqs =
        getProductCatalogGo url (rest.map PageResp.ok ++ [PageResp.ok []]) (page + 1)
          (acc ++ (q :: qs).map (normalizeProduct url)) (reqs ++ [(page, 250)]) from rfl]
    rw [ih (fun p hp => hne p (by simp [hp])) (page + 1) _ _]
    simp [List.range'_succ, List.append_assoc]

/-- C3 (amended): for an endpoint serving `N` non-empty pages and then
an empty one, the loop issues requests for pages `1 … N + 1` in
increasing order, each with limit 250 — the request for page `N + 1`
being the empty page whose `products` array terminates the loop, the
only normal termination — consumes the products of exactly the `N`
full pages in order, and issues no request beyond page `N + 1`. -/
theorem catalog_pagination_contract (url : String) (pages : List (List RawProduct))
    (hne : ∀ p ∈ pages, p ≠ []) :
    getProductCatalog url (pages.map PageResp.ok ++ [PageResp.ok []]) =
      ⟨(pages.map (fun ps => ps.map (normalizeProduct url))).flatten,
       (List.range' 1 (pages.length + 1)).map (fun n => (n, 250)),
       some TermKind.emptyPage⟩ := by
  have h := getProductCatalogGo_full url pages hne 1 [] []
  simpa [getProductCatalog] using h

theorem catalog_pagination_contract_witness :
    getProductCatalog "https://acme.com" ([[sampleRaw]].map PageResp.ok ++ [PageResp.ok []]) =
      ⟨[normalizeProduct "https://acme.com" sampleRaw], [(1, 250), (2, 250)],
       some TermKind.emptyPage⟩ := by
  have h := catalog_pagination_contract "https://acme.com" [[sampleRaw]] (by simp)
  simpa using h

/-- C3 counterexample: with `N = 1` full page followed by one empty
page, the requests issued are exactly pages 1 and 2 — in particular a
request for page `N + 1 = 2` (the empty page) is issued, contrary to
«no N+1 request is issued». -/
theorem catalog_requests_empty_page_cex :
    (getProductCatalog "https://acme.com"
        [PageResp.ok [sampleRaw], PageResp.ok []]).requests = [(1, 250), (2, 250)] ∧
    (getProductCatalog "https://acme.com"
        [PageResp.ok [sampleRaw], PageResp.ok []]).requests.contains (2, 250) = true := by
  exact ⟨rfl, rfl⟩

/-! ## Brand-name extraction -/

/-- C7 counterexample: a document with `<title>Acme</title>` and an
`og:site_name` meta whose content is `OtherBrand`: the meta loop runs
after — not only in the absence of — the title, so the extracted name
is the meta content, not the cleaned title text as claimed. -/
theorem brand_name_meta_overrides_title_cex :
    extract_brand_name ⟨some "Acme", [some "OtherBrand"], none⟩ "https://acme.com" =
      "OtherBrand" ∧
    cleanTextS "Acme" = "Acme" ∧ (("OtherBrand" : String) == "Acme") = false := by
  refine ⟨rfl, rfl, ?_⟩
  decide

/-- C7 (amended): the effective fallback precedence is
`og:site_name`/`twitter:site` meta content (first truthy match) over
the title text, then header logo, then the domain's first label: for
every document whose `<title>` cleans to a non-empty string and that
has no matched meta with truthy content, the extracted name is the
cleaned title text; and whenever the first truthy matched meta content
cleans to a non-empty string it wins regardless of the title. -/
theorem brand_name_fallback_contract :
    (∀ doc : HtmlDoc, ∀ url t, doc.titleTag = some t → cleanTextS t ≠ "" →
      findTruthyMeta doc.metaSiteContents = none →
      extract_brand_name doc url = cleanTextS t) ∧
    (∀ doc : HtmlDoc, ∀ url c, findTruthyMeta doc.metaSiteContents = some c →
      cleanTextS c ≠ "" → extract_brand_name doc url = cleanTextS c) := by
  constructor
  · intro doc url t ht hct hm
    simp only [extract_brand_name, ht, hm]
    simp [hct]
  · intro doc url c hm hcc
    simp only [extract_brand_name, hm]
    simp [hcc]

theorem brand_name_fallback_contract_witness :
    extract_brand_name ⟨some "Acme", [], none⟩ "https://acme.com" = cleanTextS "Acme" :=
  brand_name_fallback_contract.1 ⟨some "Acme", [], none⟩ "https://acme.com" "Acme" rfl
    (by decide) rfl

/-! ## Contact-email extraction -/

theorem subsetB_mem {l1 l2 : List String} (h : subsetB l1 l2 = true) {x : String}
    (hx : x ∈ l1) : x ∈ l2 := by
  have hall := List.all_eq_true.mp h x hx
  simpa using hall

/-- C8 counterexample: the document contains `a@x.com` before
`b@y.com`; `["b@y.com", "a@x.com"]` is a legitimate value of
`list(set(matches))` (same members, no duplicates), and the chosen
contact email is then `b@y.com`, not the first occurrence in the
scanned document. -/
theorem contact_email_set_order_cex :
    isSetList ["a@x.com", "b@y.com"] ["b@y.com", "a@x.com"] ∧
    chooseContactEmail ["b@y.com", "a@x.com"] = some "b@y.com" ∧
    claimedContactEmail ["a@x.com", "b@y.com"] = some "a@x.com" ∧
    (("b@y.com" : String) == "a@x.com") = false := by
  refine ⟨⟨by decide, by decide, by decide⟩, rfl, rfl, by decide⟩

/-- C8 (amended): the regex matches are filtered of
no-reply/noreply/donotreply/example.com addresses and the first
remaining (else first overall) element of the `list(set(...))` value is
chosen — but that list's order is a Python set's iteration order, not
document order, so only this holds: the chosen address is one of the
matches; it avoids the skip tokens whenever any match does; and one is
chosen whenever any match exists. -/
theorem contact_email_choice_contract :
    ∀ found out : List String, isSetList found out →
      (∀ e, chooseContactEmail out = some e → e ∈ found) ∧
      ((∃ m, m ∈ found ∧ emailKeep m = true) →
        ∃ e, chooseContactEmail out = some e ∧ emailKeep e = true) ∧
      (∀ m, m ∈ found → ∃ e, chooseContactEmail out = some e) := by
  intro found out hset
  obtain ⟨hnd, hout_sub, hfound_sub⟩ := hset
  refine ⟨?_, ?_, ?_⟩
  · intro e he
    cases out with
    | nil => simp [chooseContactEmail] at he
    | cons o os =>
      simp only [chooseContactEmail] at he
      cases hf : emailFiltered (o :: os) with
      | nil =>
        rw [hf] at he
        simp only [Option.some.injEq] at he
        subst he
        exact subsetB_mem hout_sub (List.mem_cons_self o os)
      | cons f fs =>
        rw [hf] at he
        simp only [Option.some.injEq] at he
        have hfmem : f ∈ emailFiltered (o :: os) := by
          rw [hf]
          exact List.mem_cons_self f fs
        rw [← he]
        exact subsetB_mem hout_sub (List.mem_filter.mp hfmem).1
  · rintro ⟨m, hm, hkeep⟩
    have hmout : m ∈ out := subsetB_mem hfound_sub hm
    have hmf : m ∈ emailFiltered out := List.mem_filter.mpr ⟨hmout, hkeep⟩
    cases out with
    | nil => simp at hmout
    | cons o os =>
      cases hf : emailFiltered (o :: os) with
      | nil =>
        rw [hf] at hmf
        simp at hmf
      | cons f fs =>
        refine ⟨f, by simp [chooseContactEmail, hf], ?_⟩
        have hfmem : f ∈ emailFiltered (o :: os) := by
          rw [hf]
          exact List.mem_cons_self f fs
        exact (List.mem_filter.mp hfmem).2
  · intro m hm
    have hmout : m ∈ out := subsetB_mem hfound_sub hm
    cases out with
    | nil => simp at hmout
    | cons o os =>
      cases hf : emailFiltered (o :: os) with
      | nil => exact ⟨o, by simp [chooseContactEmail, hf]⟩
      | cons f fs => exact ⟨f, by simp [chooseContactEmail, hf]⟩

theorem contact_email_choice_contract_witness :
    ∃ e, chooseContactEmail ["hello@acme.com"] = some e ∧ emailKeep e = true :=
  (contact_email_choice_contract ["hello@acme.com"] ["hello@acme.com"]
      ⟨by decide, by decide, by decide⟩).2.1
    ⟨"hello@acme.com", by decide, by decide⟩

/-! ## `scrape_store` error handling -/

/-- C10 counterexample: on input `"["` — scheme-qualified to
`"https://["` — `urlparse` raises `ValueError("Invalid IPv6 URL")`
inside the `try`; the handler, with `domain` not in `locals()`, calls
`extract_domain` again, which raises the same error, so the exception
escapes `scrape_store` instead of a dictionary being returned. -/
theorem scrape_store_raises_cex :
    scrape_store "[" ⟨.ok "<html></html>", ⟨none, [], none⟩, []⟩ =
      .error "Invalid IPv6 URL" := rfl

/-- C10 (amended): whenever domain extraction of the scheme-qualified
URL succeeds, `scrape_store` returns a dictionary and never raises; its
status is exactly `completed` or `failed`, and when the homepage fetch
raised, the failure dictionary carries the scheme-qualified input URL,
the extracted domain, `is_shopify_store = False` and the exception
text. -/
theorem scrape_store_contract (websiteUrl : String) (env : ScrapeEnv) (d : String)
    (hd : extract_domain (withScheme websiteUrl) = .ok d) :
    ∃ r, scrape_store websiteUrl env = .ok r ∧
      (r.scrapingStatus = "completed" ∨ r.scrapingStatus = "failed") ∧
      (∀ e, env.fetchHome = .raises e →
        r = { websiteUrl := withScheme websiteUrl, domain := some d,
              isShopifyStore := false, scrapingStatus := "failed",
              scrapingErrors := some e, name := none, productCatalog := none }) := by
  simp only [scrape_store]
  rw [hd]
  cases hf : env.fetchHome with
  | raises e0 =>
    refine ⟨_, rfl, Or.inr rfl, ?_⟩
    intro e he
    injection he with h
    subst h
    rfl
  | ok html =>
    refine ⟨_, rfl, Or.inl rfl, ?_⟩
    intro e he
    cases he

theorem scrape_store_contract_witness :
    ∃ r, scrape_store "acme.com" ⟨.raises "boom", ⟨none, [], none⟩, []⟩ = .ok r ∧
      (r.scrapingStatus = "completed" ∨ r.scrapingStatus = "failed") ∧
      (∀ e, (ScrapeEnv.mk (.raises "boom") ⟨none, [], none⟩ []).fetchHome = .raises e →
        r = { websiteUrl := withScheme "acme.com", domain := some "acme.com",
              isShopifyStore := false, scrapingStatus := "failed",
              scrapingErrors := some e, name := none, productCatalog := none }) :=
  scrape_store_contract "acme.com" ⟨.raises "boom", ⟨none, [], none⟩, []⟩ "acme.com" (by rfl)

/-! ## Competitor batch -/

theorem analyzeCompetitorsGo_spec (bid : Nat) :
    ∀ (envs : List (String × StepOutcome ScrapeResult)) (db : DataStore)
      (acc : List CompetitorRow),
      analyzeCompetitorsGo bid envs db acc =
        (acc ++ completedRows bid envs,
         { db with competitors := db.competitors ++ completedRows bid envs }) := by
  intro envs
  induction envs with
  | nil => intro db acc; simp [analyzeCompetitorsGo, completedRows]
  | cons p rest ih =>
    intro db acc
    obtain ⟨url, oc⟩ := p
    by_cases h : (analyzeCompetitor url oc).scrapingStatus = "completed"
    · simp [analyzeCompetitorsGo, h, completedRows, ih, List.filter_cons]
    · simp [analyzeCompetitorsGo, h, completedRows, ih, List.filter_cons]

/-- C6 (amended): the batch never aborts — each competitor is processed
independently, a raised scrape being caught inside
`analyze_competitor` — and exactly the competitors whose dictionaries
are `completed` are saved and returned, in order.  A failed competitor
is skipped: no CompetitorRecord (failed or otherwise) is saved for
it. -/
theorem competitor_batch_contract (bid : Nat)
    (envs : List (String × StepOutcome ScrapeResult)) (db : DataStore) :
    analyzeCompetitors bid envs db =
      (completedRows bid envs,
       { db with competitors := db.competitors ++ completedRows bid envs }) := by
  simpa [analyzeCompetitors] using analyzeCompetitorsGo_spec bid envs db []

/-- C6 counterexample: the first competitor's fetch raises a network
error; the batch continues and the second competitor's record is saved
and returned, but no CompetitorRecord at all is saved for the failed
one — it is skipped, not recorded as failed. -/
theorem competitor_failure_not_recorded_cex :
    ((analyzeCompetitors 7
        [("https://c1.com", .raises "network error"),
         ("https://c2.com", .ok sampleCompletedResult)] emptyStore).2.competitors.map
        (fun r => r.websiteUrl)) = ["https://c2.com"] ∧
    ((analyzeCompetitors 7
        [("https://c1.com", .raises "network error"),
         ("https://c2.com", .ok sampleCompletedResult)] emptyStore).2.competitors.filter
        (fun r => r.websiteUrl == "https://c1.com")) = [] ∧
    ((analyzeCompetitors 7
        [("https://c1.com", .raises "network error"),
         ("https://c2.com", .ok sampleCompletedResult)] emptyStore).1.map
        (fun r => r.websiteUrl)) = ["https://c2.com"] := by
  exact ⟨rfl, rfl, rfl⟩

/-! ## Brand upsert and failure traceability -/

theorem find_id_map (l : List BrandRow) (i : Nat) (f : BrandRow → BrandRow)
    (hf : ∀ b, (f b).id = b.id) :
    (l.map (fun b => if b.id = i then f b else b)).find? (fun b => b.id = i) =
      (l.find? (fun b => b.id = i)).map f := by
  induction l with
  | nil => simp
  | cons b rest ih =>
    by_cases hb : b.id = i
    · simp [List.find?_cons, hb, hf b]
    · simp [List.find?_cons, hb, ih]

theorem findBrandById_setBrand (db : DataStore) (i : Nat) (f : BrandRow → BrandRow)
    (hf : ∀ b, (f b).id = b.id) :
    findBrandById (setBrand db i f) i = (findBrandById db i).map f :=
  find_id_map db.brands i f hf

theorem findBrandById_isSome_setBrand (db : DataStore) (i : Nat)
    (f : BrandRow → BrandRow) (hf : ∀ b, (f b).id = b.id)
    (h : (findBrandById db i).isSome) :
    (findBrandById (setBrand db i f) i).isSome := by
  rw [findBrandById_setBrand db i f hf]
  simpa using h

theorem findBrandById_saveProducts (db : DataStore) (bid : Nat)
    (ps : List CatalogProduct) (i : Nat) :
    findBrandById (saveProducts db bid ps) i = findBrandById db i := rfl

theorem analyzeCompetitors_brands (bid : Nat)
    (envs : List (String × StepOutcome ScrapeResult)) (db : DataStore) :
    (analyzeCompetitors bid envs db).2.brands = db.brands := by
  rw [analyzeCompetitors, analyzeCompetitorsGo_spec]

theorem findBrandById_upsert_isSome (db : DataStore) (d : String)
    (hid : ∀ b ∈ db.brands, b.id < db.nextBrandId) :
    (findBrandById (upsertStore db d) (upsertBrandId db d)).isSome := by
  unfold upsertStore upsertBrandId findBrandById
  cases hfind : findBrand db d with
  | some b =>
    exact List.find?_isSome.mpr ⟨b, List.mem_of_find?_eq_some hfind, by simp⟩
  | none =>
    have h1 : db.brands.find? (fun b => b.id = db.nextBrandId) = none :=
      List.find?_eq_none.mpr (fun x hx => by
        simpa using Nat.ne_of_lt (hid x hx))
    simp [List.find?_append, h1, freshBrand]

/-- The state change of the exception handler: the (present) brand row
gets status `failed` and the message, and is still found by id. -/
theorem failReturn_lookup (db : DataStore) (bid : Nat) (m : String)
    (hb : (findBrandById db bid).isSome) :
    ∃ b, findBrandById (setBrand db bid (failUpd (some m))) bid = some b ∧
      b.scrapingStatus = "failed" ∧ b.scrapingErrors = some m := by
  obtain ⟨b0, hb0⟩ := Option.isSome_iff_exists.mp hb
  refine ⟨failUpd (some m) b0, ?_, rfl, rfl⟩
  rw [findBrandById_setBrand db bid (failUpd (some m)) (fun b => rfl), hb0]
  rfl

/-- C2: every exception raised after the brand row exists — the scrape
call raising, the final status-`completed` commit raising, or the
analysis insert raising — is caught by the handler rather than
propagated: the call still returns a dictionary whose `error` is the
message and whose `brand_id` is the id the upsert chose, and in the
final store that brand's row has `scraping_status = "failed"` with the
error message attached. -/
theorem analyze_brand_failure_traceability :
    (∀ url d db0 inc cenvs m fc sa, extract_domain url = Except.ok d →
      (∀ b ∈ db0.brands, b.id < db0.nextBrandId) →
      (analyze_brand url inc ⟨.raises m, fc, sa⟩ cenvs db0).1.error = some m ∧
      (analyze_brand url inc ⟨.raises m, fc, sa⟩ cenvs db0).1.brandId =
        some (upsertBrandId db0 d) ∧
      ∃ b, findBrandById (analyze_brand url inc ⟨.raises m, fc, sa⟩ cenvs db0).2
            (upsertBrandId db0 d) = some b ∧
          b.scrapingStatus = "failed" ∧ b.scrapingErrors = some m) ∧
    (∀ url d db0 inc cenvs m sa r, extract_domain url = Except.ok d →
      (∀ b ∈ db0.brands, b.id < db0.nextBrandId) →
      r.scrapingStatus ≠ "failed" →
      (analyze_brand url inc ⟨.ok r, .raises m, sa⟩ cenvs db0).1.error = some m ∧
      (analyze_brand url inc ⟨.ok r, .raises m, sa⟩ cenvs db0).1.brandId =
        some (upsertBrandId db0 d) ∧
      ∃ b, findBrandById (analyze_brand url inc ⟨.ok r, .raises m, sa⟩ cenvs db0).2
            (upsertBrandId db0 d) = some b ∧
          b.scrapingStatus = "failed" ∧ b.scrapingErrors = some m) ∧
    (∀ url d db0 cenvs m r, extract_domain url = Except.ok d →
      (∀ b ∈ db0.brands, b.id < db0.nextBrandId) →
      r.scrapingStatus ≠ "failed" →
      (analyze_brand url true ⟨.ok r, .ok (), .raises m⟩ cenvs db0).1.error = some m ∧
      (analyze_brand url true ⟨.ok r, .ok (), .raises m⟩ cenvs db0).1.brandId =
        some (upsertBrandId db0 d) ∧
      ∃ b, findBrandById (analyze_brand url true ⟨.ok r, .ok (), .raises m⟩ cenvs db0).2
            (upsertBrandId db0 d) = some b ∧
          b.scrapingStatus = "failed" ∧ b.scrapingErrors = some m) := by
  refine ⟨?_, ?_, ?_⟩
  · intro url d db0 inc cenvs m fc sa hd hid
    have hpres : (findBrandById
        (setBrand (upsertStore db0 d) (upsertBrandId db0 d) (inProgressUpd url d))
        (upsertBrandId db0 d)).isSome :=
      findBrandById_isSome_setBrand _ _ _ (fun b => rfl)
        (findBrandById_upsert_isSome db0 d hid)
    simp only [analyze_brand, hd]
    exact ⟨trivial, trivial, failReturn_lookup _ _ m hpres⟩
  · intro url d db0 inc cenvs m sa r hd hid hrs
    have hpres2 : (findBrandById
        (setBrand (upsertStore db0 d) (upsertBrandId db0 d) (inProgressUpd url d))
        (upsertBrandId db0 d)).isSome :=
      findBrandById_isSome_setBrand _ _ _ (fun b => rfl)
        (findBrandById_upsert_isSome db0 d hid)
    have hpres3 : (findBrandById
        (setBrand (setBrand (upsertStore db0 d) (upsertBrandId db0 d)
          (inProgressUpd url d)) (upsertBrandId db0 d)
          (fun b => updateBrandFromScraped b (llmProcess r)))
        (upsertBrandId db0 d)).isSome :=
      findBrandById_isSome_setBrand _ _ _ (fun b => rfl) hpres2
    simp only [analyze_brand, hd, hrs, if_false, llmProcess]
    cases hcat : r.productCatalog with
    | none =>
      simp only [hcat]
      exact ⟨trivial, trivial, failReturn_lookup _ _ m (by simpa [llmProcess] using hpres3)⟩
    | some cat =>
      cases cat with
      | nil =>
        simp only [hcat]
        exact ⟨trivial, trivial, failReturn_lookup _ _ m (by simpa [llmProcess] using hpres3)⟩
      | cons p ps =>
        simp only [hcat]
        refine ⟨trivial, trivial, ?_⟩
        refine failReturn_lookup _ _ m ?_
        rw [findBrandById_saveProducts]
        simpa [llmProcess] using hpres3
  · intro url d db0 cenvs m r hd hid hrs
    have hpres2 : (findBrandById
        (setBrand (upsertStore db0 d) (upsertBrandId db0 d) (inProgressUpd url d))
        (upsertBrandId db0 d)).isSome :=
      findBrandById_isSome_setBrand _ _ _ (fun b => rfl)
        (findBrandById_upsert_isSome db0 d hid)
    have hpres3 : (findBrandById
        (setBrand (setBrand (upsertStore db0 d) (upsertBrandId db0 d)
          (inProgressUpd url d)) (upsertBrandId db0 d)
          (fun b => updateBrandFromScraped b (llmProcess r)))
        (upsertBrandId db0 d)).isSome :=
      findBrandById_isSome_setBrand _ _ _ (fun b => rfl) hpres2
    simp only [analyze_brand, hd, hrs, if_false, llmProcess]
    cases hcat : r.productCatalog with
    | none =>
      simp only [hcat]
      rw [if_pos trivial]
      refine ⟨rfl, rfl, ?_⟩
      refine failReturn_lookup _ _ m ?_
      unfold findBrandById
      rw [analyzeCompetitors_brands]
      have := findBrandById_isSome_setBrand _ (upsertBrandId db0 d) completedUpd
        (fun b => rfl) (by simpa [llmProcess] using hpres3)
      simpa [findBrandById] using this
    | some cat =>
      cases cat with
      | nil =>
        simp only [hcat]
        rw [if_pos trivial]
        refine ⟨rfl, rfl, ?_⟩
        refine failReturn_lookup _ _ m ?_
        unfold findBrandById
        rw [analyzeCompetitors_brands]
        have := findBrandById_isSome_setBrand _ (upsertBrandId db0 d) completedUpd
          (fun b => rfl) (by simpa [llmProcess] using hpres3)
        simpa [findBrandById] using this
      | cons p ps =>
        simp only [hcat]
        rw [if_pos trivial]
        refine ⟨rfl, rfl, ?_⟩
        refine failReturn_lookup _ _ m ?_
        unfold findBrandById
        rw [analyzeCompetitors_brands]
        have hps : (findBrandById (saveProducts
            (setBrand (setBrand (upsertStore db0 d) (upsertBrandId db0 d)
              (inProgressUpd url d)) (upsertBrandId db0 d)
              (fun b => updateBrandFromScraped b (llmProcess r)))
            (upsertBrandId db0 d) (p :: ps)) (upsertBrandId db0 d)).isSome := by
          rw [findBrandById_saveProducts]
          exact hpres3
        have := findBrandById_isSome_setBrand _ (upsertBrandId db0 d) completedUpd
          (fun b => rfl) hps
        simpa [llmProcess, findBrandById] using this

theorem analyze_brand_failure_traceability_witness :
    (analyze_brand "https://acme.com" false ⟨.raises "boom", .ok (), .ok ()⟩ []
        emptyStore).1.error = some "boom" ∧
    (analyze_brand "https://acme.com" false ⟨.raises "boom", .ok (), .ok ()⟩ []
        emptyStore).1.brandId = some (upsertBrandId emptyStore "acme.com") ∧
    ∃ b, findBrandById (analyze_brand "https://acme.com" false
          ⟨.raises "boom", .ok (), .ok ()⟩ [] emptyStore).2
        (upsertBrandId emptyStore "acme.com") = some b ∧
      b.scrapingStatus = "failed" ∧ b.scrapingErrors = some "boom" :=
  analyze_brand_failure_traceability.1 "https://acme.com" "acme.com" emptyStore false []
    "boom" (.ok ()) (.ok ()) (by rfl) (by simp [emptyStore])

/-! ## Idempotent upsert and product replacement -/

theorem analyze_brand_ok_run (url d : String) (db0 : DataStore) (r : ScrapeResult)
    (hd : extract_domain url = Except.ok d) (hs : r.scrapingStatus ≠ "failed") :
    analyze_brand url false (okEnv r) [] db0 =
      (⟨none, some (upsertBrandId db0 d), some "completed", none⟩,
       setBrand
         (match r.productCatalog with
          | some (p :: ps) =>
            saveProducts
              (setBrand (setBrand (upsertStore db0 d) (upsertBrandId db0 d)
                (inProgressUpd url d)) (upsertBrandId db0 d)
                (fun b => updateBrandFromScraped b r)) (upsertBrandId db0 d) (p :: ps)
          | _ =>
            setBrand (setBrand (upsertStore db0 d) (upsertBrandId db0 d)
              (inProgressUpd url d)) (upsertBrandId db0 d)
              (fun b => updateBrandFromScraped b r))
         (upsertBrandId db0 d) completedUpd) := by
  simp only [analyze_brand, hd, okEnv, llmProcess, hs, if_false]
  cases hcat : r.productCatalog with
  | none => simp [hcat]
  | some cat =>
    cases cat with
    | nil => simp [hcat]
    | cons p ps => simp [hcat]

theorem ok_run_brands (url d : String) (db0 : DataStore) (r : ScrapeResult)
    (hd : extract_domain url = Except.ok d) (hs : r.scrapingStatus ≠ "failed") :
    (analyze_brand url false (okEnv r) [] db0).2.brands =
      (((upsertStore db0 d).brands.map
          (fun b => if b.id = upsertBrandId db0 d then inProgressUpd url d b else b)).map
          (fun b => if b.id = upsertBrandId db0 d then updateBrandFromScraped b r else b)).map
        (fun b => if b.id = upsertBrandId db0 d then completedUpd b else b) := by
  rw [analyze_brand_ok_run url d db0 r hd hs]
  cases r.productCatalog with
  | none => rfl
  | some cat =>
    cases cat with
    | nil => rfl
    | cons p ps => rfl

theorem ok_run_products_nonempty (url d : String) (db0 : DataStore) (r : ScrapeResult)
    (c : CatalogProduct) (cs : List CatalogProduct)
    (hd : extract_domain url = Except.ok d) (hs : r.scrapingStatus ≠ "failed")
    (hc : r.productCatalog = some (c :: cs)) :
    (analyze_brand url false (okEnv r) [] db0).2.products =
      db0.products.filter (fun p => p.brandId ≠ upsertBrandId db0 d) ++
        (c :: cs).map (mkProductRow (upsertBrandId db0 d)) := by
  have hup : (upsertStore db0 d).products = db0.products := by
    unfold upsertStore
    cases findBrand db0 d <;> rfl
  rw [analyze_brand_ok_run url d db0 r hd hs, hc]
  simp [saveProducts, setBrand, hup]

theorem map_upd_id (l : List BrandRow) (i : Nat) (f : BrandRow → BrandRow)
    (h : ∀ b ∈ l, b.id ≠ i) :
    l.map (fun b => if b.id = i then f b else b) = l := by
  induction l with
  | nil => rfl
  | cons b rest ih =>
    rw [List.map_cons, if_neg (h b (List.mem_cons_self b rest)),
      ih (fun x hx => h x (List.mem_cons_of_mem b hx))]

theorem map_upd_append_single (l : List BrandRow) (x : BrandRow) (i : Nat)
    (f : BrandRow → BrandRow) (h : ∀ b ∈ l, b.id ≠ i) (hx : x.id = i) :
    (l ++ [x]).map (fun b => if b.id = i then f b else b) = l ++ [f x] := by
  rw [List.map_append, map_upd_id l i f h]
  simp [hx]

theorem filter_save_products (ps0 : List ProductRow) (bid : Nat)
    (cat : List CatalogProduct) :
    ((ps0.filter (fun p => p.brandId ≠ bid)) ++ cat.map (mkProductRow bid)).filter
        (fun p => p.brandId = bid) = cat.map (mkProductRow bid) := by
  rw [List.filter_append]
  have h1 : (ps0.filter (fun p => p.brandId ≠ bid)).filter (fun p => p.brandId = bid) = [] := by
    rw [List.filter_filter]
    apply List.filter_eq_nil_iff.mpr
    intro a _
    by_cases hb : a.brandId = bid <;> simp [hb]
  have h2 : (cat.map (mkProductRow bid)).filter (fun p => p.brandId = bid) =
      cat.map (mkProductRow bid) := by
    apply List.filter_eq_self.mpr
    intro a ha
    obtain ⟨c, _, rfl⟩ := List.mem_map.mp ha
    simp [mkProductRow]
  rw [h1, h2, List.nil_append]

theorem idsAfterUpd (l : List BrandRow) (i : Nat) (f : BrandRow → BrandRow)
    (hf : ∀ b, (f b).id = b.id) :
    (l.map (fun b => if b.id = i then f b else b)).map (fun b => b.id) =
      l.map (fun b => b.id) := by
  induction l with
  | nil => rfl
  | cons b rest ih =>
    by_cases hb : b.id = i
    · simp [hb, hf b, ih]
    · simp [hb, ih]

/-- C1 (amended): analyzing the same domain twice is an idempotent
upsert.  With no pre-existing record for the domain, the first
successful run creates one record (fresh id appended); the second
successful run finds and updates that record — same brand id, no new
row, still exactly one record for the domain — and, when the second
run's product catalog is non-empty, the brand's product rows afterwards
are exactly the second run's products (delete-then-insert).  When the
second run's catalog is empty or missing, `_save_products` is skipped
and the first run's rows remain (see the counterexample). -/
theorem analyze_brand_upsert_contract (url d : String) (db0 : DataStore)
    (r1 r2 : ScrapeResult) (cat2 : List CatalogProduct)
    (hd : extract_domain url = Except.ok d)
    (hnew : ∀ b ∈ db0.brands, b.domain ≠ d)
    (hid : ∀ b ∈ db0.brands, b.id < db0.nextBrandId)
    (hs1 : r1.scrapingStatus ≠ "failed")
    (hs2 : r2.scrapingStatus ≠ "failed")
    (hc2 : r2.productCatalog = some cat2) (hne2 : cat2 ≠ []) :
    (analyze_brand url false (okEnv r1) [] db0).1.brandId = some db0.nextBrandId ∧
    (analyze_brand url false (okEnv r2) []
        (analyze_brand url false (okEnv r1) [] db0).2).1.brandId =
      some db0.nextBrandId ∧
    (analyze_brand url false (okEnv r2) []
        (analyze_brand url false (okEnv r1) [] db0).2).1.analysisStatus =
      some "completed" ∧
    ((analyze_brand url false (okEnv r1) [] db0).2.brands.map (fun b => b.id) =
      db0.brands.map (fun b => b.id) ++ [db0.nextBrandId]) ∧
    ((analyze_brand url false (okEnv r2) []
        (analyze_brand url false (okEnv r1) [] db0).2).2.brands.map (fun b => b.id) =
      (analyze_brand url false (okEnv r1) [] db0).2.brands.map (fun b => b.id)) ∧
    (((analyze_brand url false (okEnv r2) []
        (analyze_brand url false (okEnv r1) [] db0).2).2.brands.filter
          (fun b => b.domain = d)).map (fun b => b.id) = [db0.nextBrandId]) ∧
    ((analyze_brand url false (okEnv r2) []
        (analyze_brand url false (okEnv r1) [] db0).2).2.products.filter
        (fun p => p.brandId = db0.nextBrandId) =
      cat2.map (mkProductRow db0.nextBrandId)) := by
  obtain ⟨c, cs, rfl⟩ : ∃ c cs, cat2 = c :: cs := by
    cases cat2 with
    | nil => exact absurd rfl hne2
    | cons c cs => exact ⟨c, cs, rfl⟩
  have hfind0 : findBrand db0 d = none :=
    List.find?_eq_none.mpr (fun b hb => by simpa using hnew b hb)
  have hbid0 : upsertBrandId db0 d = db0.nextBrandId := by
    simp [upsertBrandId, hfind0]
  have hupb : (upsertStore db0 d).brands = db0.brands ++ [freshBrand db0.nextBrandId] := by
    simp [upsertStore, hfind0]
  have hidne : ∀ b ∈ db0.brands, b.id ≠ db0.nextBrandId :=
    fun b hb => Nat.ne_of_lt (hid b hb)
  set st1 := (analyze_brand url false (okEnv r1) [] db0).2 with hst1
  have hb1 : st1.brands =
      db0.brands ++ [completedUpd (updateBrandFromScraped
        (inProgressUpd url d (freshBrand db0.nextBrandId)) r1)] := by
    rw [hst1, ok_run_brands url d db0 r1 hd hs1, hbid0, hupb]
    rw [map_upd_append_single db0.brands (freshBrand db0.nextBrandId) db0.nextBrandId
      (inProgressUpd url d) hidne rfl]
    rw [map_upd_append_single db0.brands (inProgressUpd url d (freshBrand db0.nextBrandId))
      db0.nextBrandId (fun b => updateBrandFromScraped b r1) hidne rfl]
    rw [map_upd_append_single db0.brands (updateBrandFromScraped
      (inProgressUpd url d (freshBrand db0.nextBrandId)) r1)
      db0.nextBrandId completedUpd hidne rfl]
  have hfind1 : findBrand st1 d = some (completedUpd (updateBrandFromScraped
      (inProgressUpd url d (freshBrand db0.nextBrandId)) r1)) := by
    unfold findBrand
    rw [hb1, List.find?_append]
    rw [show db0.brands.find? (fun b => b.domain = d) = none from hfind0]
    simp [completedUpd, updateBrandFromScraped, inProgressUpd]
  have hbid1 : upsertBrandId st1 d = db0.nextBrandId := by
    simp [upsertBrandId, hfind1]
    rfl
  have hup1 : upsertStore st1 d = st1 := by
    simp [upsertStore, hfind1]
  refine ⟨?_, ?_, ?_, ?_, ?_, ?_, ?_⟩
  · rw [analyze_brand_ok_run url d db0 r1 hd hs1]
    simp [hbid0]
  · rw [analyze_brand_ok_run url d st1 r2 hd hs2]
    simp [hbid1]
  · rw [analyze_brand_ok_run url d st1 r2 hd hs2]
  · rw [hb1]
    simp [completedUpd, updateBrandFromScraped, inProgressUpd, freshBrand]
  · rw [ok_run_brands url d st1 r2 hd hs2, hbid1, hup1]
    rw [idsAfterUpd _ db0.nextBrandId completedUpd (fun b => rfl)]
    rw [idsAfterUpd _ db0.nextBrandId (fun b => updateBrandFromScraped b r2) (fun b => rfl)]
    rw [idsAfterUpd _ db0.nextBrandId (inProgressUpd url d) (fun b => rfl)]
  · rw [ok_run_brands url d st1 r2 hd hs2, hbid1, hup1, hb1]
    rw [map_upd_append_single db0.brands _ db0.nextBrandId (inProgressUpd url d) hidne rfl]
    rw [map_upd_append_single db0.brands _ db0.nextBrandId
      (fun b => updateBrandFromScraped b r2) hidne rfl]
    rw [map_upd_append_single db0.brands _ db0.nextBrandId completedUpd hidne rfl]
    rw [List.filter_append]
    rw [show db0.brands.filter (fun b => b.domain = d) = [] from
      List.filter_eq_nil_iff.mpr (fun b hb => by simpa using hnew b hb)]
    simp [completedUpd, updateBrandFromScraped, inProgressUpd, freshBrand]
  · rw [ok_run_products_nonempty url d st1 r2 c cs hd hs2 hc2, hbid1]
    exact filter_save_products st1.products db0.nextBrandId (c :: cs)

theorem analyze_brand_upsert_contract_witness :
    (analyze_brand "https://acme.com" false
        (okEnv (sampleBrandResult (some [normalizeProduct "https://acme.com" sampleRaw]))) []
        (analyze_brand "https://acme.com" false
          (okEnv (sampleBrandResult (some [normalizeProduct "https://acme.com" sampleRaw]))) []
          emptyStore).2).2.products.filter
      (fun p => p.brandId = emptyStore.nextBrandId) =
      [normalizeProduct "https://acme.com" sampleRaw].map (mkProductRow emptyStore.nextBrandId) :=
  (analyze_brand_upsert_contract "https://acme.com" "acme.com" emptyStore
    (sampleBrandResult (some [normalizeProduct "https://acme.com" sampleRaw]))
    (sampleBrandResult (some [normalizeProduct "https://acme.com" sampleRaw]))
    [normalizeProduct "https://acme.com" sampleRaw]
    (by rfl) (by simp [emptyStore]) (by simp [emptyStore])
    (by simp [sampleBrandResult]) (by simp [sampleBrandResult])
    (by rfl) (by simp)).2.2.2.2.2.2

/-- C1 counterexample: first run succeeds with a one-product catalog;
the second run on the same domain also succeeds (`completed`) but its
`product_catalog` is the empty list, which is falsy, so
`_save_products` is never invoked: the store still holds the first
run's product row — the product set after a successful second run does
not reflect only the second run's (empty) product set. -/
theorem products_not_replaced_on_empty_catalog_cex :
    (analyze_brand "https://acme.com" false (okEnv (sampleBrandResult (some []))) []
        (analyze_brand "https://acme.com" false
          (okEnv (sampleBrandResult (some [normalizeProduct "https://acme.com" sampleRaw]))) []
          emptyStore).2).1.analysisStatus = some "completed" ∧
    (analyze_brand "https://acme.com" false (okEnv (sampleBrandResult (some []))) []
        (analyze_brand "https://acme.com" false
          (okEnv (sampleBrandResult (some [normalizeProduct "https://acme.com" sampleRaw]))) []
          emptyStore).2).2.products =
      [mkProductRow 0 (normalizeProduct "https://acme.com" sampleRaw)] := by
  exact ⟨rfl, rfl⟩

end ShopifyInsights
